import Mathlib

set_option maxRecDepth 16384

/-!
Verification of the Daten.AI Task Execution and Event Streaming Engine.

This file shallowly embeds the Python source of the engine:
  backend/app/services/code_executor.py  (CodeExecutor._parse_output)
  backend/app/utils/streaming.py         (StreamManager)
  backend/app/routers/run.py             (ExecutionManager, execute_task_async,
                                          cancel_task)
Pure functions become Lean functions; the asynchronous orchestrator becomes a
deterministic function of the oracle outcomes and of the suspension point at
which a cancellation request is interleaved (asyncio runs one event loop, so
other coroutines run only at the awaited sleeps of the pipeline).
Machine integers do not occur; Python float parsing is modelled categorically
(finite / infinite / nan / failure, with overflow saturation), finite values
kept as exact rationals.
-/

/-! ## Python string primitives, modelled on lists of characters -/

/-- Whitespace characters recognised by Python str.strip (ASCII range). -/
def pyIsSpace (c : Char) : Bool :=
  c = ' ' || c = '\t' || c = '\n' || c = '\r' || c = '\x0b' || c = '\x0c'

/-- Python str.strip(): remove leading and trailing whitespace. -/
def pyStrip (l : List Char) : List Char :=
  ((l.dropWhile pyIsSpace).reverse.dropWhile pyIsSpace).reverse

/-- Python str.split(sep) for a one-character separator, no maxsplit:
the empty string yields one empty chunk, like Python. -/
def splitOnChar (sep : Char) : List Char → List (List Char)
  | [] => [[]]
  | c :: rest =>
    if c = sep then [] :: splitOnChar sep rest
    else
      match splitOnChar sep rest with
      | [] => [[c]]
      | r :: rs => (c :: r) :: rs

/-- Python str.split(sep, maxsplit) for a one-character separator. -/
def pySplitMax (sep : Char) : ℕ → List Char → List (List Char)
  | _, [] => [[]]
  | 0, l => [l]
  | n + 1, c :: rest =>
    if c = sep then [] :: pySplitMax sep n rest
    else
      match pySplitMax sep (n + 1) rest with
      | [] => [[c]]
      | r :: rs => (c :: r) :: rs

/-- Fuel-bounded scan behind replaceAll: every step consumes at least one
input character and one unit of fuel, so fuel = input length suffices. -/
def replaceAllF (pat : List Char) : ℕ → List Char → List Char
  | _, [] => []
  | 0, l => l
  | n + 1, c :: rest =>
    if pat.isPrefixOf (c :: rest) then
      replaceAllF pat n (rest.drop (pat.length - 1))
    else
      c :: replaceAllF pat n rest

/-- Python str.replace(pat, ""): delete every non-overlapping occurrence of
pat, scanning left to right.  (Only used with non-empty concrete patterns.) -/
def replaceAll (pat l : List Char) : List Char :=
  replaceAllF pat l.length l

/-- Python s1 in s2 (substring test). -/
def containsSeq (pat : List Char) : List Char → Bool
  | [] => pat.isEmpty
  | c :: rest => pat.isPrefixOf (c :: rest) || containsSeq pat rest

/-- Python str.split(sep) for a multi-character separator. -/
def splitSeq (sep : List Char) : List Char → List (List Char)
  | [] => [[]]
  | c :: rest =>
    if sep.isPrefixOf (c :: rest) then
      [] :: splitSeq sep (rest.drop (sep.length - 1))
    else
      match splitSeq sep rest with
      | [] => [[c]]
      | r :: rs => (c :: r) :: rs
termination_by l => l.length
decreasing_by
  · simp only [List.length_cons]
    have := List.length_drop (sep.length - 1) rest
    omega
  · simp

/-- Numeric value of a string of decimal digits. -/
def natOfDigits (l : List Char) : ℕ :=
  l.foldl (fun a c => a * 10 + (c.toNat - 48)) 0

/-- mant scaled by ten to the power (ex - scale), as an exact rational. -/
def decScaled (mant : ℤ) (scale : ℕ) (ex : ℤ) : ℚ :=
  let net : ℤ := ex - (scale : ℤ)
  if 0 ≤ net then mkRat (mant * (10 : ℤ) ^ net.toNat) 1
  else mkRat mant ((10 : ℕ) ^ (-net).toNat)

/-- The value categories Python float(str) can produce: a finite value (kept
as its exact rational, since no claim can observe IEEE rounding of a finite
result), a signed infinity, or nan. -/
inductive PyFloatVal where
  | finite : ℚ → PyFloatVal
  | inf : Bool → PyFloatVal
  | nan : PyFloatVal
deriving DecidableEq

/-- The IEEE double overflow threshold 2 ^ 1024 - 2 ^ 970: under round to
nearest, ties to even, a decimal literal whose magnitude reaches this bound
converts to infinity. -/
def pyFloatOvf : ℚ := ((2 ^ 1024 - 2 ^ 970 : ℕ) : ℚ)

/-- Saturate an exact decimal value to a signed infinity past the double
overflow threshold, as Python float(str) does. -/
def satFloat (q : ℚ) : PyFloatVal :=
  if pyFloatOvf ≤ q then PyFloatVal.inf false
  else if q ≤ -pyFloatOvf then PyFloatVal.inf true
  else PyFloatVal.finite q

/-- Continuation of takeDigitsU: consume further digits, allowing a single
underscore between two digits (CPython's grouping rule). -/
def digitsUGo : ℕ → ℕ → List Char → ℕ × ℕ × List Char
  | acc, cnt, [] => (acc, cnt, [])
  | acc, cnt, '_' :: d :: r =>
    if d.isDigit then digitsUGo (acc * 10 + (d.toNat - 48)) (cnt + 1) r
    else (acc, cnt, '_' :: d :: r)
  | acc, cnt, c :: r =>
    if c.isDigit then digitsUGo (acc * 10 + (c.toNat - 48)) (cnt + 1) r
    else (acc, cnt, c :: r)

/-- Maximal run of decimal digits with single underscores between digits:
returns the value, the number of digits, and the unconsumed rest. -/
def takeDigitsU : List Char → ℕ × ℕ × List Char
  | [] => (0, 0, [])
  | c :: r => if c.isDigit then digitsUGo (c.toNat - 48) 1 r else (0, 0, c :: r)

/-- Tail of a Python float literal after the mantissa: an optional e / E
exponent (signed, underscore-grouped digits) and then the end of the
string. -/
def pyFloatTail (mant : ℤ) (fdigits : ℕ) (rest : List Char) : Option PyFloatVal :=
  match rest with
  | [] => some (satFloat (decScaled mant fdigits 0))
  | e :: r =>
    if e = 'e' || e = 'E' then
      let sgnRest : ℤ × List Char :=
        match r with
        | '+' :: rr => (1, rr)
        | '-' :: rr => (-1, rr)
        | rr => (1, rr)
      let ed := takeDigitsU sgnRest.2
      if ed.2.1 = 0 || !ed.2.2.isEmpty then none
      else some (satFloat (decScaled mant fdigits (sgnRest.1 * (ed.1 : ℤ))))
    else none

/-- Model of Python float(str): optional surrounding whitespace, optional
sign, then a case-insensitive inf / infinity / nan keyword or a decimal
literal (underscore-grouped digits, optional fractional part and exponent).
Finite results are kept as exact rationals — IEEE rounding of a finite value
is not modelled, only the categorical outcome (finite / infinite / nan /
failure) and the overflow saturation to infinity.  Digits and whitespace are
ASCII, as everywhere in this embedding; Python additionally accepts Unicode
decimal digits and whitespace. -/
def pyFloat (l : List Char) : Option PyFloatVal :=
  let s := pyStrip l
  let signRest : ℤ × List Char :=
    match s with
    | '+' :: r => (1, r)
    | '-' :: r => (-1, r)
    | r => (1, r)
  let low := signRest.2.map Char.toLower
  if low == "inf".toList || low == "infinity".toList then
    some (PyFloatVal.inf (decide (signRest.1 < 0)))
  else if low == "nan".toList then some PyFloatVal.nan
  else
    let ipr := takeDigitsU signRest.2
    match ipr.2.2 with
    | '.' :: r2 =>
      let fpr := takeDigitsU r2
      if ipr.2.1 = 0 && fpr.2.1 = 0 then none
      else
        pyFloatTail (signRest.1 * ((ipr.1 * 10 ^ fpr.2.1 + fpr.1 : ℕ) : ℤ))
          fpr.2.1 fpr.2.2
    | _ =>
      if ipr.2.1 = 0 then none
      else pyFloatTail (signRest.1 * (ipr.1 : ℤ)) 0 ipr.2.2

/-! ## A model of Python json.loads

The JSON values the table grammar can produce.  Python distinguishes int and
float results; both are carried here as exact rationals, which no claim can
observe (table cells are only compared through the parser itself). -/

inductive PyJson where
  | null : PyJson
  | boolean : Bool → PyJson
  | num : ℚ → PyJson
  | str : List Char → PyJson
  | arr : List PyJson → PyJson
  | obj : List (List Char × PyJson) → PyJson

/-- JSON whitespace. -/
def jsonWs (c : Char) : Bool := c = ' ' || c = '\t' || c = '\n' || c = '\r'

def skipWs (l : List Char) : List Char := l.dropWhile jsonWs

/-- Body of a JSON string literal, after the opening quote.  The \uXXXX escape
is not modelled (treated as a parse failure); no claim exercises it. -/
def jsonStringRest : List Char → Option (List Char × List Char)
  | [] => none
  | '"' :: r => some ([], r)
  | '\\' :: e :: r =>
    let esc : Option Char :=
      match e with
      | '"' => some '"'
      | '\\' => some '\\'
      | '/' => some '/'
      | 'b' => some '\x08'
      | 'f' => some '\x0c'
      | 'n' => some '\n'
      | 'r' => some '\r'
      | 't' => some '\t'
      | _ => none
    match esc with
    | some c =>
      match jsonStringRest r with
      | some (s, rest) => some (c :: s, rest)
      | none => none
    | none => none
  | c :: r =>
    if c.toNat < 32 then none
    else
      match jsonStringRest r with
      | some (s, rest) => some (c :: s, rest)
      | none => none

/-- Fraction-and-exponent tail of a JSON number whose integer part is ip. -/
def jsonNumTail (sgn : ℤ) (ip : ℕ) (r : List Char) : Option (ℚ × List Char) :=
  let fracRes : Option (ℕ × ℕ × List Char) :=
    match r with
    | '.' :: r1 =>
      let fd := r1.takeWhile Char.isDigit
      let r2 := r1.dropWhile Char.isDigit
      if fd.isEmpty then none else some (natOfDigits fd, fd.length, r2)
    | _ => some (0, 0, r)
  match fracRes with
  | none => none
  | some (fp, fl, r2) =>
    let mant : ℤ := sgn * ((ip * 10 ^ fl + fp : ℕ) : ℤ)
    match r2 with
    | e :: r3 =>
      if e = 'e' || e = 'E' then
        let sgnRest : ℤ × List Char :=
          match r3 with
          | '+' :: rr => (1, rr)
          | '-' :: rr => (-1, rr)
          | rr => (1, rr)
        let ed := sgnRest.2.takeWhile Char.isDigit
        let r4 := sgnRest.2.dropWhile Char.isDigit
        if ed.isEmpty then none
        else some (decScaled mant fl (sgnRest.1 * (natOfDigits ed : ℤ)), r4)
      else some (decScaled mant fl 0, r2)
    | [] => some (decScaled mant fl 0, [])

/-- A JSON number at the head of the input (strict JSON grammar: no leading
plus, no bare leading zeros). -/
def jsonNumber (l : List Char) : Option (ℚ × List Char) :=
  let signRest : ℤ × List Char :=
    match l with
    | '-' :: r => (-1, r)
    | r => (1, r)
  match signRest.2 with
  | '0' :: r1 => jsonNumTail signRest.1 0 r1
  | c :: r1 =>
    if c.isDigit then
      jsonNumTail signRest.1 (natOfDigits (c :: r1.takeWhile Char.isDigit))
        (r1.dropWhile Char.isDigit)
    else none
  | [] => none

mutual

/-- A JSON value at the head of the input (fuel-bounded recursive descent). -/
def jsonVal : ℕ → List Char → Option (PyJson × List Char)
  | 0, _ => none
  | n + 1, l =>
    match skipWs l with
    | '"' :: r =>
      match jsonStringRest r with
      | some (s, rest) => some (PyJson.str s, rest)
      | none => none
    | '[' :: r =>
      match skipWs r with
      | ']' :: r2 => some (PyJson.arr [], r2)
      | r2 =>
        match jsonItems n r2 with
        | some (es, r3) => some (PyJson.arr es, r3)
        | none => none
    | '{' :: r =>
      match skipWs r with
      | '}' :: r2 => some (PyJson.obj [], r2)
      | r2 =>
        match jsonFields n r2 with
        | some (fs, r3) => some (PyJson.obj fs, r3)
        | none => none
    | 't' :: r =>
      if "rue".toList.isPrefixOf r then some (PyJson.boolean true, r.drop 3) else none
    | 'f' :: r =>
      if "alse".toList.isPrefixOf r then some (PyJson.boolean false, r.drop 4) else none
    | 'n' :: r =>
      if "ull".toList.isPrefixOf r then some (PyJson.null, r.drop 3) else none
    | l2 =>
      match jsonNumber l2 with
      | some (q, rest) => some (PyJson.num q, rest)
      | none => none

/-- One or more comma-separated JSON values followed by a closing bracket. -/
def jsonItems : ℕ → List Char → Option (List PyJson × List Char)
  | 0, _ => none
  | n + 1, l =>
    match jsonVal n l with
    | none => none
    | some (v, r) =>
      match skipWs r with
      | ',' :: r2 =>
        match jsonItems n r2 with
        | some (vs, r3) => some (v :: vs, r3)
        | none => none
      | ']' :: r2 => some ([v], r2)
      | _ => none

/-- One or more comma-separated key-value pairs followed by a closing brace. -/
def jsonFields : ℕ → List Char → Option (List (List Char × PyJson) × List Char)
  | 0, _ => none
  | n + 1, l =>
    match skipWs l with
    | '"' :: r =>
      match jsonStringRest r with
      | none => none
      | some (k, r1) =>
        match skipWs r1 with
        | ':' :: r2 =>
          match jsonVal n r2 with
          | none => none
          | some (v, r3) =>
            match skipWs r3 with
            | ',' :: r4 =>
              match jsonFields n r4 with
              | some (fs, r5) => some ((k, v) :: fs, r5)
              | none => none
            | '}' :: r4 => some ([(k, v)], r4)
            | _ => none
        | _ => none
    | _ => none

end

/-- Model of Python json.loads: parse one JSON document, allow surrounding
whitespace, reject trailing input.  The fuel bound is generous: every two
recursion levels consume at least one input character.  Python additionally
accepts the non-standard NaN / Infinity / -Infinity constants; like the
\uXXXX escape, they are not modelled (treated as a parse failure), so every
body this model parses is parsed the same way by Python, while some
Python-parsable bodies fail here — a corner outside every claim's premise. -/
def pyJsonLoads (l : List Char) : Option PyJson :=
  match jsonVal (2 * l.length + 8) l with
  | some (v, r) => if skipWs r = [] then some v else none
  | none => none

/-! ## Artifacts and the output parser (CodeExecutor._parse_output) -/

/-- A metric value: opportunistically float-parsed (finite, infinite or nan),
else the literal string. -/
inductive MetricValue where
  | num : ℚ → MetricValue
  | inf : Bool → MetricValue
  | nan : MetricValue
  | str : String → MetricValue
deriving DecidableEq

/-- The three artifact variants produced by the output parser. -/
inductive Artifact where
  | table (name : String) (data : List (List String)) : Artifact
  | plot (name : String) (format : String) (data : String) : Artifact
  | metrics (items : List (String × MetricValue)) : Artifact
deriving DecidableEq

/-- Is a parsed JSON value an object. -/
def isObj : PyJson → Bool
  | PyJson.obj _ => true
  | _ => false

def objFields : PyJson → List (List Char × PyJson)
  | PyJson.obj fs => fs
  | _ => []

/-- Keys of a Python dict built from parsed JSON fields: first-occurrence
order, duplicates collapsed. -/
def pyDictKeysAux : List (List Char × PyJson) → List (List Char) → List (List Char)
  | [], acc => acc
  | (k, _) :: rest, acc =>
    pyDictKeysAux rest (if acc.contains k then acc else acc ++ [k])

def pyDictKeys (fs : List (List Char × PyJson)) : List (List Char) :=
  pyDictKeysAux fs []

/-- dict.get on parsed JSON fields: the last value bound to the key. -/
def pyDictGet (fs : List (List Char × PyJson)) (k : List Char) : Option PyJson :=
  (fs.reverse.find? (fun p => p.1 == k)).map (fun p => p.2)

/-- Model of Python str() on a parsed JSON scalar, used only to stringify
table cells.  Numbers and containers use a simplified rendering; no claim
inspects a table cell, both sides of every theorem go through this same
function. -/
def pyStr : PyJson → List Char
  | PyJson.null => "None".toList
  | PyJson.boolean true => "True".toList
  | PyJson.boolean false => "False".toList
  | PyJson.str s => s
  | PyJson.num q => (toString q).toList
  | PyJson.arr _ => "[...]".toList
  | PyJson.obj _ => "<dict>".toList

/-- Lines 115-131 of code_executor.py: parse the joined table body as JSON and
convert it to a header row plus stringified data rows.  An artifact is
produced exactly when the body parses to a non-empty array of objects; the
empty array is falsy in Python and is skipped, and any other shape raises
inside the try block and is swallowed. -/
def tableArtifact (name : List Char) (body : List Char) : Option Artifact :=
  match pyJsonLoads body with
  | some (PyJson.arr (r :: rs)) =>
    if (r :: rs).all isObj then
      let headers := pyDictKeys (objFields r)
      let rows := (r :: rs).map (fun record =>
        headers.map (fun h =>
          match pyDictGet (objFields record) h with
          | some v => String.mk (pyStr v)
          | none => ""))
      some (Artifact.table (String.mk name) (headers.map String.mk :: rows))
    else none
  | _ => none

def tsMark : List Char := "TABLE_START:".toList
def teMark : List Char := "TABLE_END".toList
def pbMark : List Char := "PLOT_BASE64:".toList
def mMark : List Char := "METRIC:".toList

/-- Accumulator of the parse loop: the three per-kind lists of artifacts
(metrics as the item list of the single metrics artifact). -/
structure PState where
  tables : List Artifact
  plots : List Artifact
  metricItems : List (String × MetricValue)
deriving DecidableEq

/-- Python "".join of the captured table lines. -/
def joinAll (ls : List (List Char)) : List Char :=
  ls.foldr (fun a b => a ++ b) []

/-- The inner while condition of the table block: keep capturing while the
stripped line does not start with TABLE_END. -/
def notTableEnd (x : List Char) : Bool :=
  !(teMark.isPrefixOf (pyStrip x))

def metricParse (v : List Char) : MetricValue :=
  match pyFloat v with
  | some (PyFloatVal.finite q) => MetricValue.num q
  | some (PyFloatVal.inf b) => MetricValue.inf b
  | some PyFloatVal.nan => MetricValue.nan
  | none => MetricValue.str (String.mk v)

/-- The main while loop of _parse_output, fuel-bounded so that it is
structurally recursive (the fuel is taken to be the number of lines; every
step consumes at least one line and one unit of fuel). -/
def parseLoopF : ℕ → List (List Char) → PState → PState
  | _, [], st => st
  | 0, _ :: _, st => st
  | n + 1, l :: rest, st =>
    let line := pyStrip l
    if tsMark.isPrefixOf line then
      let tname := replaceAll tsMark line
      let body := rest.takeWhile notTableEnd
      let rest2 := (rest.dropWhile notTableEnd).drop 1
      let st2 :=
        match tableArtifact tname (joinAll body) with
        | some a => { st with tables := st.tables ++ [a] }
        | none => st
      parseLoopF n rest2 st2
    else if pbMark.isPrefixOf line then
      parseLoopF n rest
        { st with plots := st.plots ++
            [Artifact.plot ("plot_" ++ toString (st.plots.length + 1)) "png_base64"
              (String.mk (replaceAll pbMark line))] }
    else if mMark.isPrefixOf line then
      let parts := pySplitMax ':' 2 (replaceAll mMark line)
      if 2 ≤ parts.length then
        parseLoopF n rest
          { st with metricItems := st.metricItems ++
              [(String.mk (parts.getD 0 []), metricParse (parts.getD 1 []))] }
      else parseLoopF n rest st
    else parseLoopF n rest st

/-- Run the parse loop with its canonical fuel. -/
def runParse (lines : List (List Char)) (st : PState) : PState :=
  parseLoopF lines.length lines st

/-- Lines 169-178 of code_executor.py: flatten the per-kind lists, tables
first, then plots, then the single metrics artifact if any metric was seen. -/
def flattenArtifacts (st : PState) : List Artifact :=
  st.tables ++ st.plots ++
    (if st.metricItems.isEmpty then [] else [Artifact.metrics st.metricItems])

/-- CodeExecutor._parse_output: split the captured output on newlines, run the
marker scan, flatten. -/
def parse_output (output : String) : List Artifact :=
  flattenArtifacts (runParse (splitOnChar '\n' output.toList) ⟨[], [], []⟩)

/-! ## Single-purpose scans, written from the specification

These follow the words of the specification (one scan per artifact group,
each emitting artifacts in order of first appearance of their marker, table
blocks skipped whole); they exist to be compared with the combined parser. -/

/-- Spec-side scan: the table artifacts, in order of appearance of their
TABLE_START markers. -/
def specTablesF : ℕ → List (List Char) → List Artifact
  | _, [] => []
  | 0, _ :: _ => []
  | n + 1, l :: rest =>
    let line := pyStrip l
    if tsMark.isPrefixOf line then
      let body := rest.takeWhile notTableEnd
      let rest2 := (rest.dropWhile notTableEnd).drop 1
      match tableArtifact (replaceAll tsMark line) (joinAll body) with
      | some a => a :: specTablesF n rest2
      | none => specTablesF n rest2
    else specTablesF n rest

/-- Spec-side scan: the plot artifacts, in order of appearance of their
markers, numbered by a running count of plots seen so far. -/
def specPlotsF : ℕ → ℕ → List (List Char) → List Artifact
  | _, _, [] => []
  | 0, _, _ :: _ => []
  | n + 1, k, l :: rest =>
    let line := pyStrip l
    if tsMark.isPrefixOf line then
      specPlotsF n k ((rest.dropWhile notTableEnd).drop 1)
    else if pbMark.isPrefixOf line then
      Artifact.plot ("plot_" ++ toString (k + 1)) "png_base64"
          (String.mk (replaceAll pbMark line)) ::
        specPlotsF n (k + 1) rest
    else specPlotsF n k rest

/-- Spec-side scan: the metric name-value pairs, in encounter order. -/
def specMetricItemsF : ℕ → List (List Char) → List (String × MetricValue)
  | _, [] => []
  | 0, _ :: _ => []
  | n + 1, l :: rest =>
    let line := pyStrip l
    if tsMark.isPrefixOf line then
      specMetricItemsF n ((rest.dropWhile notTableEnd).drop 1)
    else if pbMark.isPrefixOf line then
      specMetricItemsF n rest
    else if mMark.isPrefixOf line then
      let parts := pySplitMax ':' 2 (replaceAll mMark line)
      if 2 ≤ parts.length then
        (String.mk (parts.getD 0 []), metricParse (parts.getD 1 [])) ::
          specMetricItemsF n rest
      else specMetricItemsF n rest
    else specMetricItemsF n rest

def specTables (lines : List (List Char)) : List Artifact :=
  specTablesF lines.length lines

def specPlots (lines : List (List Char)) : List Artifact :=
  specPlotsF lines.length 0 lines

def specMetricItems (lines : List (List Char)) : List (String × MetricValue) :=
  specMetricItemsF lines.length lines

/-! ## Event Stream Bus (streaming.py, StreamManager) -/

/-- One published event: kind, payload and timestamp.  Payloads and
timestamps are carried opaquely (claims only inspect event kinds and event
identity). -/
structure EventData where
  event : String
  data : String
  timestamp : ℕ
deriving DecidableEq

/-- Pointwise update of a string-keyed map. -/
def updMap {α : Type} (f : String → Option α) (id : String) (v : Option α) :
    String → Option α :=
  fun k => if k = id then v else f k

/-- The StreamManager state: per-id live queue (a FIFO list of puts, where
none is the close sentinel), the set of completed streams, and the per-id
replay cache. -/
structure StreamManager where
  activeStreams : String → Option (List (Option EventData))
  completedStreams : Finset String
  cachedEvents : String → Option (List EventData)

/-- Lines 17-22: install a fresh empty queue for the id. -/
def StreamManager.create_stream (m : StreamManager) (id : String) : StreamManager :=
  { m with activeStreams := updMap m.activeStreams id (some []) }

/-- Lines 24-27. -/
def StreamManager.get_stream (m : StreamManager) (id : String) :
    Option (List (Option EventData)) :=
  m.activeStreams id

/-- Lines 29-46: always append the event to the replay cache (creating the
cache entry if absent), and also enqueue it if a live queue exists. -/
def StreamManager.send_event (m : StreamManager) (id : String) (e : EventData) :
    StreamManager :=
  let m1 := { m with
    cachedEvents := updMap m.cachedEvents id (some ((m.cachedEvents id).getD [] ++ [e])) }
  match m1.activeStreams id with
  | some q => { m1 with activeStreams := updMap m1.activeStreams id (some (q ++ [some e])) }
  | none => m1

/-- Lines 48-55: enqueue the sentinel if a queue exists and mark the stream
completed. -/
def StreamManager.close_stream (m : StreamManager) (id : String) : StreamManager :=
  match m.activeStreams id with
  | some q =>
    { m with activeStreams := updMap m.activeStreams id (some (q ++ [none])),
             completedStreams := insert id m.completedStreams }
  | none => m

/-- FIFO consumption of a queue until the none sentinel (the while loop of
stream_events, lines 81-88). -/
def consumeUntilSentinel : List (Option EventData) → List EventData
  | [] => []
  | none :: _ => []
  | some e :: rest => e :: consumeUntilSentinel rest

def emptyStreamManager : StreamManager :=
  ⟨fun _ => none, ∅, fun _ => none⟩

/-- The sequence of events delivered by stream_events (lines 57-98) to a
subscriber that attaches after the events pre have been published on a stream
opened by create_stream, after which the events post are published and the
stream is closed: the subscriber first replays a snapshot of the cache, then
drains the live queue in FIFO order until the sentinel.  Every event of post
reaches the queue before the drain passes it, so the drain yields the queue
contents at attach time followed by post. -/
def lateSubscriberDelivery (id : String) (pre post : List EventData) : List EventData :=
  let m := pre.foldl (fun m e => m.send_event id e) (emptyStreamManager.create_stream id)
  (m.cachedEvents id).getD [] ++
    consumeUntilSentinel (((m.activeStreams id).getD []) ++ post.map some ++ [none])

/-! ## Execution Registry (run.py, ExecutionManager) -/

/-- Registration metadata (run.py lines 27-31); the timestamp is supplied by
the caller in this model. -/
structure ExecMeta where
  fileId : String
  taskId : String
  startedAt : ℕ
deriving DecidableEq

/-- The ExecutionManager state: the set of active execution ids and the
metadata map. -/
structure ExecutionManager where
  activeExecutions : Finset String
  executionMetadata : String → Option ExecMeta

/-- Lines 24-31: set.add plus metadata insert. -/
def ExecutionManager.add_execution (m : ExecutionManager)
    (id fileId taskId : String) (now : ℕ) : ExecutionManager :=
  ⟨insert id m.activeExecutions,
   updMap m.executionMetadata id (some ⟨fileId, taskId, now⟩)⟩

/-- Lines 33-36: set.discard plus dict.pop with default — both silent on a
missing id. -/
def ExecutionManager.remove_execution (m : ExecutionManager) (id : String) :
    ExecutionManager :=
  ⟨m.activeExecutions.erase id, updMap m.executionMetadata id none⟩

/-- Lines 38-40. -/
def ExecutionManager.is_active (m : ExecutionManager) (id : String) : Bool :=
  decide (id ∈ m.activeExecutions)

/-- Lines 42-44. -/
def ExecutionManager.get_active_count (m : ExecutionManager) : ℕ :=
  m.activeExecutions.card

/-- Lines 46-48 (the source returns an empty dict for a missing id). -/
def ExecutionManager.get_metadata (m : ExecutionManager) (id : String) :
    Option ExecMeta :=
  m.executionMetadata id

/-! ## Orchestrator (run.py, execute_task_async and cancel_task)

The pipeline is deterministic once the outcomes of the external collaborators
are fixed; they are collected in OracleEnv.  A cancellation request is a
second coroutine on the same event loop, so it can only run while the
pipeline is suspended: the suspension points are the asyncio.sleep calls at
lines 77, 114, 129, 352 and 380, numbered in trace order, and cancelAt names
the suspension at which the cancel endpoint runs. -/

/-- The generation oracle result (run.py lines 96-100). -/
structure GenResult where
  plan : String
  assumptions : String
  pythonCode : String
  summary : String
  followups : String
deriving DecidableEq

/-- A script execution result as returned by CodeExecutor.execute: the
captured fault (none on success), the parsed artifacts and the elapsed
time. -/
structure ExecResult where
  error : Option String
  artifacts : List Artifact
  executionTime : ℕ
deriving DecidableEq

/-- Outcomes of the external collaborators for one run: the plan generation
(none = the oracle call raises), the repair call per attempt number (none =
the call raises), the captured fault / stdout / elapsed time of the k-th
script execution (k = 0 initial), and the summary call. -/
structure OracleEnv where
  genPlan : Option GenResult
  fixText : ℕ → Option String
  scriptFault : ℕ → Option String
  scriptStdout : ℕ → String
  scriptTime : ℕ → ℕ
  summaryText : Option String

/-- CodeExecutor.execute for the k-th execution of this run: the runner never
raises outward; on success the artifacts come from the output parser, on a
fault they are empty. -/
def runScript (env : OracleEnv) (k : ℕ) : ExecResult :=
  ⟨env.scriptFault k,
   if env.scriptFault k = none then parse_output (env.scriptStdout k) else [],
   env.scriptTime k⟩

/-- Lines 220-226: strip the oracle's repair response and unwrap a markdown
code fence if present. -/
def cleanCode (t : String) : String :=
  let fixed := pyStrip t.toList
  if containsSeq "```python".toList fixed then
    String.mk (pyStrip ((splitSeq "```".toList
      ((splitSeq "```python".toList fixed).getD 1 [])).getD 0 []))
  else if containsSeq "```".toList fixed then
    String.mk (pyStrip ((splitSeq "```".toList
      ((splitSeq "```".toList fixed).getD 1 [])).getD 0 []))
  else String.mk fixed

/-- A stored ExecutionResult (storage.store_result payloads at run.py lines
259-264 and 324-340), keeping the fields the claims observe. -/
inductive StoredResult where
  | completed (pythonCode summary : String) (artifacts : List Artifact) (time : ℕ)
  | failed (error : String) (time : ℕ)
deriving DecidableEq

/-- The shared system state threaded through the orchestrator: the Registry,
the Stream Bus, the result store, the count of suspension points passed so
far, a record of the cancel endpoint having fired (with the event kinds
already published at that moment), and the count of oracle repair calls. -/
structure Sys where
  registry : ExecutionManager
  stream : StreamManager
  stored : List (String × StoredResult)
  yields : ℕ
  cancelInfo : Option (List String)
  fixCalls : ℕ

/-- The kinds of the events published so far for an id (the replay cache
records every published event). -/
def cachedKinds (s : Sys) (id : String) : List String :=
  ((s.stream.cachedEvents id).getD []).map EventData.event

def sendEv (s : Sys) (id kind : String) : Sys :=
  { s with stream := s.stream.send_event id ⟨kind, "", 0⟩ }

def closeS (s : Sys) (id : String) : Sys :=
  { s with stream := s.stream.close_stream id }

def storeRes (s : Sys) (id : String) (r : StoredResult) : Sys :=
  { s with stored := s.stored ++ [(id, r)] }

/-- cancel_task (run.py lines 391-407): if the id is live, remove it from the
Registry and close its stream; otherwise do nothing.  When it fires it
records the kinds published so far. -/
def cancelEndpoint (id : String) (s : Sys) : Sys :=
  if s.registry.is_active id then
    { s with registry := s.registry.remove_execution id,
             stream := s.stream.close_stream id,
             cancelInfo := some (cachedKinds s id) }
  else s

/-- One suspension point of the pipeline: the yield counter advances, and the
cancel endpoint runs here when cancelAt names this suspension. -/
def doYield (cancelAt : Option ℕ) (id : String) (s : Sys) : Sys :=
  let s1 := { s with yields := s.yields + 1 }
  if cancelAt = some s.yields then cancelEndpoint id s1 else s1

/-- The auto-fix while loop (run.py lines 153-245), fuel-bounded by the
remaining attempts (max_fix_attempts = 2).  Returns inl when the loop aborts
the pipeline on a cancellation, inr with the current code, the last execution
result and the state to continue.  A raising repair call (fixText = none)
breaks out of the loop keeping the last execution result. -/
def autoFixLoop (env : OracleEnv) (id : String) :
    ℕ → ℕ → ℕ → String → ExecResult → Sys → Sys ⊕ (String × ExecResult × Sys)
  | 0, _, _, code, res, s => Sum.inr (code, res, s)
  | fuel + 1, attempt, execIdx, code, res, s =>
    if res.error = none then Sum.inr (code, res, s)
    else if s.registry.is_active id = false then Sum.inl (closeS s id)
    else
      let s1 := sendEv s id "execution"
      let s2 := { s1 with fixCalls := s1.fixCalls + 1 }
      match env.fixText (attempt + 1) with
      | none => Sum.inr (code, res, s2)
      | some t =>
        autoFixLoop env id fuel (attempt + 1) (execIdx + 1)
          (cleanCode t) (runScript env execIdx) s2

/-- The try/except body of execute_task_async (run.py lines 62-382).  The
is_active checks, event publications, suspension points and early returns
follow the source line by line; the except branch at lines 359-382 is reached
exactly when the plan-generation oracle call raises (the only raising call in
the try block outside its own try/except). -/
def execTaskBody (env : OracleEnv) (cancelAt : Option ℕ) (id : String) (s : Sys) : Sys :=
  if s.registry.is_active id = false then s
  else
    let s := sendEv s id "planning"
    let s := doYield cancelAt id s
    if s.registry.is_active id = false then closeS s id
    else
      match env.genPlan with
      | none =>
        let s := sendEv s id "error"
        let s := storeRes s id (StoredResult.failed "Unexpected error" 0)
        let s := doYield cancelAt id s
        closeS s id
      | some g =>
        if s.registry.is_active id = false then closeS s id
        else
          let s := sendEv s id "code_generation"
          let s := doYield cancelAt id s
          if s.registry.is_active id = false then closeS s id
          else
            let s := sendEv s id "execution"
            let s := doYield cancelAt id s
            let res := runScript env 0
            if s.registry.is_active id = false then closeS s id
            else
              match autoFixLoop env id 2 0 1 g.pythonCode res s with
              | Sum.inl sAborted => sAborted
              | Sum.inr (code, res2, s) =>
                match res2.error with
                | some e =>
                  let s := sendEv s id "error"
                  let s := storeRes s id (StoredResult.failed e res2.executionTime)
                  closeS s id
                | none =>
                  let summ :=
                    match env.summaryText with
                    | some t =>
                      let t2 := String.mk (pyStrip t.toList)
                      if t2 ≠ "" ∧ 20 < t2.length then t2 else g.summary
                    | none => g.summary
                  let s := sendEv s id "summary"
                  let s := storeRes s id
                    (StoredResult.completed code summ res2.artifacts res2.executionTime)
                  let s := sendEv s id "complete"
                  let s := doYield cancelAt id s
                  closeS s id

/-- execute_task_async: register the execution, run the body, and always
remove the execution in the finally block. -/
def execute_task_async (env : OracleEnv) (cancelAt : Option ℕ)
    (id fileId taskId : String) (s0 : Sys) : Sys :=
  let s1 := { s0 with registry := s0.registry.add_execution id fileId taskId 0 }
  let s2 := execTaskBody env cancelAt id s1
  { s2 with registry := s2.registry.remove_execution id }

/-- The state at the start of a run: empty Registry and store, and a stream
already opened for the id (run_task creates the stream before queueing the
background task, line 432). -/
def initSys (id : String) : Sys :=
  { registry := ⟨∅, fun _ => none⟩,
    stream := emptyStreamManager.create_stream id,
    stored := [], yields := 0, cancelInfo := none, fixCalls := 0 }

/-! ## Concrete data used by the counterexamples and witnesses -/

def evPlanning : EventData := ⟨"planning", "", 0⟩
def evCodeGen : EventData := ⟨"code_generation", "", 0⟩
def evExecution : EventData := ⟨"execution", "", 0⟩
def evSummary : EventData := ⟨"summary", "", 0⟩
def evComplete : EventData := ⟨"complete", "", 0⟩

/-- The events published before the late subscriber attaches. -/
def preC1 : List EventData := [evPlanning, evCodeGen]

/-- The events published after the late subscriber attaches. -/
def postC1 : List EventData := [evExecution, evSummary, evComplete]

/-- A stream manager state in which id t already has a live stream holding
one event and a non-empty replay cache. -/
def busyStream : StreamManager :=
  ⟨updMap (fun _ => none) "t" (some [some evPlanning]), ∅,
   updMap (fun _ => none) "t" (some [evPlanning])⟩

/-- An empty registry. -/
def emptyRegistry : ExecutionManager := ⟨∅, fun _ => none⟩

def genD : GenResult := ⟨"", "", "print", "draft", ""⟩

/-- Every collaborator succeeds, the script runs clean. -/
def envHappy : OracleEnv :=
  ⟨some genD, fun _ => none, fun _ => none, fun _ => "", fun _ => 0, none⟩

/-- The plan-generation oracle call raises. -/
def envPlanFault : OracleEnv :=
  ⟨none, fun _ => none, fun _ => some "boom", fun _ => "", fun _ => 0, none⟩

/-- The script faults on every execution; both repair calls return code. -/
def envAllFail : OracleEnv :=
  ⟨some genD, fun _ => some "fixed", fun _ => some "boom", fun _ => "", fun _ => 7, none⟩

/-! ## Theorems -/

/-! ### Helper lemmas on the stream bus -/

theorem send_event_cached (m : StreamManager) (id : String) (e : EventData) :
    (m.send_event id e).cachedEvents id =
      some ((m.cachedEvents id).getD [] ++ [e]) := by
  unfold StreamManager.send_event
  cases h : m.activeStreams id <;> simp [updMap, h]

theorem send_event_queue (m : StreamManager) (id : String) (e : EventData) (q)
    (hq : m.activeStreams id = some q) :
    (m.send_event id e).activeStreams id = some (q ++ [some e]) := by
  unfold StreamManager.send_event
  simp [updMap, hq]

theorem foldl_send (id : String) :
    ∀ (pre : List EventData) (m : StreamManager) (q : List (Option EventData)),
      m.activeStreams id = some q →
      ((pre.foldl (fun m e => m.send_event id e) m).cachedEvents id).getD [] =
          (m.cachedEvents id).getD [] ++ pre ∧
        (pre.foldl (fun m e => m.send_event id e) m).activeStreams id =
          some (q ++ pre.map some) := by
  intro pre
  induction pre with
  | nil => intro m q hq; simp [hq]
  | cons e rest ih =>
    intro m q hq
    have hc := send_event_cached m id e
    have hqe := send_event_queue m id e q hq
    have := ih (m.send_event id e) (q ++ [some e]) hqe
    rcases this with ⟨h1, h2⟩
    constructor
    · simp only [List.foldl_cons]
      rw [h1, hc]; simp
    · simp only [List.foldl_cons]
      rw [h2]; simp

theorem consume_map_some (post : List EventData) :
    ∀ (xs : List EventData),
      consumeUntilSentinel (xs.map some ++ post.map some ++ [none]) = xs ++ post := by
  intro xs
  induction xs with
  | nil =>
    induction post with
    | nil => simp [consumeUntilSentinel]
    | cons e rest ih => simpa [consumeUntilSentinel] using ih
  | cons e rest ih => simpa [consumeUntilSentinel] using ih

/-! ### C1 — late subscriber delivery -/

/-- C1 (counterexample): a subscriber attaching after planning and
code_generation were published, with execution, summary and complete
published afterwards, does not receive the published sequence exactly once:
planning is delivered twice (once from the replay cache, once from the live
queue that still holds it). -/
theorem c1_counterexample :
    lateSubscriberDelivery "t" preC1 postC1 ≠ preC1 ++ postC1 ∧
      List.count evPlanning (lateSubscriberDelivery "t" preC1 postC1) = 2 := by
  decide

/-- C1 (amended): a subscriber that attaches after the events pre have been
published and before the terminal event receives the cached replay of pre
followed by the full queue contents — pre again, then each subsequently
published event exactly once, in publish order.  Every pre-attachment event
is therefore delivered twice. -/
theorem c1_late_delivery (id : String) (pre post : List EventData) :
    lateSubscriberDelivery id pre post = pre ++ (pre ++ post) := by
  simp only [lateSubscriberDelivery]
  have h0 : (emptyStreamManager.create_stream id).activeStreams id = some [] := by
    simp [emptyStreamManager, StreamManager.create_stream, updMap]
  rcases foldl_send id pre (emptyStreamManager.create_stream id) [] h0 with ⟨h1, h2⟩
  rw [h1, h2]
  have hc : (emptyStreamManager.create_stream id).cachedEvents id = none := by
    simp [emptyStreamManager, StreamManager.create_stream]
  rw [hc]
  simpa using consume_map_some post pre

/-! ### C9 — create_stream -/

/-- C9 (counterexample): called on a state where id t already has a live
stream and a non-empty replay cache, create_stream does not fail — it
installs a fresh queue — and it does not create a fresh, empty replay cache:
the old cached events survive. -/
theorem c9_counterexample :
    (busyStream.create_stream "t").activeStreams "t" = some [] ∧
      (busyStream.create_stream "t").cachedEvents "t" = some [evPlanning] ∧
      some [evPlanning] ≠ (some [] : Option (List EventData)) := by
  refine ⟨by decide, by decide, by decide⟩

/-- C9 (amended): create_stream always succeeds: it installs a fresh, empty
live channel for the id, unconditionally overwriting any existing one, and it
leaves the replay cache and the completed-stream set untouched (the cache is
created lazily by send_event). -/
theorem c9_create_stream_overwrites (m : StreamManager) (id : String) :
    (m.create_stream id).activeStreams id = some [] ∧
      (m.create_stream id).cachedEvents = m.cachedEvents ∧
      (m.create_stream id).completedStreams = m.completedStreams := by
  refine ⟨?_, rfl, rfl⟩
  simp [StreamManager.create_stream, updMap]

/-! ### C8 — Registry remove idempotence -/

/-- C8: removing an execution id twice leaves the Registry in the same state
as removing it once, and removing an id that is not registered (not active
and without metadata) is a no-op that raises no error. -/
theorem c8_remove_idempotent (m : ExecutionManager) (id : String) :
    (m.remove_execution id).remove_execution id = m.remove_execution id ∧
      (m.is_active id = false → m.executionMetadata id = none →
        m.remove_execution id = m) := by
  constructor
  · cases m with
    | mk act meta =>
      simp only [ExecutionManager.remove_execution, ExecutionManager.mk.injEq]
      refine ⟨Finset.erase_idem, ?_⟩
      funext k
      by_cases hk : k = id <;> simp [updMap, hk]
  · intro h1 h2
    cases m with
    | mk act meta =>
      simp only [ExecutionManager.remove_execution, ExecutionManager.mk.injEq]
      constructor
      · apply Finset.erase_eq_of_not_mem
        exact of_decide_eq_false h1
      · funext k
        by_cases hk : k = id
        · subst hk; simp only [updMap, if_pos rfl]; exact h2.symm
        · simp [updMap, hk]

/-- C8 (witness): on the empty registry, removing the unknown id x twice
equals removing it once, and removing it once is a no-op. -/
theorem c8_witness :
    (emptyRegistry.remove_execution "x").remove_execution "x" =
        emptyRegistry.remove_execution "x" ∧
      emptyRegistry.remove_execution "x" = emptyRegistry :=
  ⟨(c8_remove_idempotent emptyRegistry "x").1,
   (c8_remove_idempotent emptyRegistry "x").2 (by decide) rfl⟩

/-! ### C5 — the metrics-and-plot scenario -/

/-- C5 (counterexample): the scenario input does not parse to a Metrics
artifact followed by a Plot artifact — the parser places plots before
metrics. -/
theorem c5_counterexample :
    parse_output "METRIC:rows:120\nMETRIC:cols:5\nPLOT_BASE64:AAAA" ≠
      [Artifact.metrics [("rows", MetricValue.num 120), ("cols", MetricValue.num 5)],
       Artifact.plot "plot_1" "png_base64" "AAAA"] := by
  decide

/-- C5 (amended): the scenario input parses to exactly one Plot artifact
named plot_1 with payload AAAA followed by exactly one Metrics artifact with
items rows = 120 and cols = 5, in that order. -/
theorem c5_scenario :
    parse_output "METRIC:rows:120\nMETRIC:cols:5\nPLOT_BASE64:AAAA" =
      [Artifact.plot "plot_1" "png_base64" "AAAA",
       Artifact.metrics [("rows", MetricValue.num 120), ("cols", MetricValue.num 5)]] := by
  decide

/-! ### C4 — the METRIC line value field (counterexample) -/

/-- C4 (counterexample): on the line METRIC:a:b:c the parser stores the value
b (the second colon-delimited field), not the entire remainder b:c of the
line after the name. -/
theorem c4_counterexample :
    parse_output "METRIC:a:b:c" = [Artifact.metrics [("a", MetricValue.str "b")]] ∧
      parse_output "METRIC:a:b:c" ≠ [Artifact.metrics [("a", MetricValue.str "b:c")]] := by
  decide

/-! ### C7 — malformed table blocks (counterexample) -/

/-- C7 (counterexample): an unterminated TABLE_START block swallows every
following line, so the well-formed PLOT_BASE64 marker after it produces no
artifact: the whole parse is empty rather than containing the plot. -/
theorem c7_counterexample :
    parse_output "TABLE_START:t\nx\nPLOT_BASE64:AAAA" = [] ∧
      parse_output "TABLE_START:t\nx\nPLOT_BASE64:AAAA" ≠
        [Artifact.plot "plot_1" "png_base64" "AAAA"] := by
  decide

/-! ### C2 — cancellation before Executing (counterexample) -/

/-- C2 (counterexample): when the plan-generation oracle raises, the fault
handler publishes an error event and then sleeps before closing the stream; a
cancellation arriving at that suspension still removes the id (the endpoint
fires, with no execution event ever published — the Executing state never
began), yet an error event has been published for the id. -/
theorem c2_counterexample :
    (execute_task_async envPlanFault (some 1) "t" "f" "k" (initSys "t")).cancelInfo =
        some ["planning", "error"] ∧
      "execution" ∉ ["planning", "error"] ∧
      "error" ∈
        cachedKinds (execute_task_async envPlanFault (some 1) "t" "f" "k" (initSys "t")) "t" := by
  refine ⟨by decide, by decide, by decide⟩

/-! ### C4 — the METRIC line fields (amended theorem) -/

theorem replaceAllF_nil (pat : List Char) (n : ℕ) : replaceAllF pat n [] = [] := by
  cases n <;> rfl

theorem replaceAllF_irrel (pat : List Char) :
    ∀ (n m : ℕ) (l : List Char), l.length ≤ n → l.length ≤ m →
      replaceAllF pat n l = replaceAllF pat m l := by
  intro n
  induction n with
  | zero =>
    intro m l hn _
    have : l = [] := List.length_eq_zero.1 (Nat.le_zero.1 hn)
    subst this
    simp [replaceAllF_nil]
  | succ n ih =>
    intro m l hn hm
    cases l with
    | nil => simp [replaceAllF_nil]
    | cons c rest =>
      cases m with
      | zero => simp at hm
      | succ m =>
        simp only [replaceAllF]
        by_cases h : pat.isPrefixOf (c :: rest) = true
        · rw [if_pos h, if_pos h]
          apply ih
          · have := List.length_drop (pat.length - 1) rest
            simp at hn; omega
          · have := List.length_drop (pat.length - 1) rest
            simp at hm; omega
        · rw [if_neg h, if_neg h]
          simp at hn hm
          rw [ih m rest (by omega) (by omega)]

theorem replaceAll_cons_pos (pat c rest) (h : pat.isPrefixOf (c :: rest) = true) :
    replaceAll pat (c :: rest) = replaceAll pat (rest.drop (pat.length - 1)) := by
  unfold replaceAll
  simp only [List.length_cons, replaceAllF, if_pos h]
  apply replaceAllF_irrel
  · have := List.length_drop (pat.length - 1) rest; omega
  · exact le_rfl

theorem replaceAll_cons_neg (pat c rest) (h : pat.isPrefixOf (c :: rest) = false) :
    replaceAll pat (c :: rest) = c :: replaceAll pat rest := by
  unfold replaceAll
  simp only [List.length_cons, replaceAllF, h, Bool.false_eq_true, if_false]

theorem isPrefixOf_append_self : ∀ (p t : List Char), p.isPrefixOf (p ++ t) = true
  | [], _ => by simp [List.isPrefixOf]
  | c :: p, t => by
    simp only [List.cons_append, List.isPrefixOf, Bool.and_eq_true, beq_self_eq_true,
      true_and]
    exact isPrefixOf_append_self p t

theorem isPrefixOf_cons_false {a b : Char} (p l : List Char) (h : (a == b) = false) :
    (a :: p).isPrefixOf (b :: l) = false := by
  simp only [List.isPrefixOf, h, Bool.false_and]

/-- Dropping the pattern when it stands at the front. -/
theorem replaceAll_append_self (c0 : Char) (p t : List Char) :
    replaceAll (c0 :: p) ((c0 :: p) ++ t) = replaceAll (c0 :: p) t := by
  rw [List.cons_append, replaceAll_cons_pos (c0 :: p) c0 (p ++ t)
    (isPrefixOf_append_self (c0 :: p) t)]
  simp [List.drop_left]

theorem pySplitMax_zero (sep : Char) (l : List Char) : pySplitMax sep 0 l = [l] := by
  cases l <;> rfl

theorem pySplitMax_chunk (sep : Char) :
    ∀ (name : List Char), (∀ c ∈ name, ¬ c = sep) →
      ∀ (n : ℕ) (t : List Char),
        pySplitMax sep (n + 1) (name ++ sep :: t) = name :: pySplitMax sep n t := by
  intro name
  induction name with
  | nil => intro _ n t; simp [pySplitMax]
  | cons c rest ih =>
    intro h n t
    have hc : ¬ c = sep := h c (List.mem_cons_self c rest)
    simp only [List.cons_append, pySplitMax, if_neg hc, List.append_eq]
    rw [ih (fun x hx => h x (List.mem_cons_of_mem c hx)) n t]

theorem splitOnChar_single (sep : Char) :
    ∀ (l : List Char), (∀ c ∈ l, ¬ c = sep) → splitOnChar sep l = [l] := by
  intro l
  induction l with
  | nil => intro _; rfl
  | cons c rest ih =>
    intro h
    have hc : ¬ c = sep := h c (List.mem_cons_self c rest)
    simp only [splitOnChar, if_neg hc]
    rw [ih (fun x hx => h x (List.mem_cons_of_mem c hx))]

theorem dropWhile_all_false {p : Char → Bool} :
    ∀ (l : List Char), (∀ c ∈ l, p c = false) → l.dropWhile p = l := by
  intro l h
  cases l with
  | nil => rfl
  | cons c rest =>
    simp [List.dropWhile, h c (List.mem_cons_self c rest)]

theorem pyStrip_eq_self (l : List Char) (h : ∀ c ∈ l, pyIsSpace c = false) :
    pyStrip l = l := by
  unfold pyStrip
  rw [dropWhile_all_false l h,
    dropWhile_all_false l.reverse (fun c hc => h c (List.mem_reverse.1 hc)),
    List.reverse_reverse]

theorem parseLoopF_nil (n : ℕ) (st : PState) : parseLoopF n [] st = st := by
  cases n <;> rfl

/-- One metric line handled by the parse loop. -/
theorem parseLoopF_metric_cons (n : ℕ) (l : List Char) (rest : List (List Char))
    (st : PState)
    (h1 : tsMark.isPrefixOf (pyStrip l) = false)
    (h2 : pbMark.isPrefixOf (pyStrip l) = false)
    (h3 : mMark.isPrefixOf (pyStrip l) = true)
    (h4 : 2 ≤ (pySplitMax ':' 2 (replaceAll mMark (pyStrip l))).length) :
    parseLoopF (n + 1) (l :: rest) st =
      parseLoopF n rest
        { st with metricItems := st.metricItems ++
            [(String.mk ((pySplitMax ':' 2 (replaceAll mMark (pyStrip l))).getD 0 []),
              metricParse ((pySplitMax ':' 2 (replaceAll mMark (pyStrip l))).getD 1 []))] } := by
  simp only [parseLoopF, h1, h2, h3, h4, Bool.false_eq_true, if_false, if_true, if_pos h4]

/-- A true isPrefixOf with a cons pattern exposes the head of the longer
list. -/
theorem isPrefixOf_cons_exists {a : Char} (p : List Char) :
    ∀ (s : List Char), (a :: p).isPrefixOf s = true → ∃ t, s = a :: t := by
  intro s h
  cases s with
  | nil => simp [List.isPrefixOf] at h
  | cons b t =>
    refine ⟨t, ?_⟩
    simp only [List.isPrefixOf, Bool.and_eq_true, beq_iff_eq] at h
    rw [h.1]

theorem pySplitMax_ne_nil (sep : Char) (n : ℕ) (l : List Char) :
    pySplitMax sep n l ≠ [] := by
  cases l with
  | nil => cases n <;> simp [pySplitMax]
  | cons c rest =>
    cases n with
    | zero => simp [pySplitMax]
    | succ n =>
      simp only [pySplitMax]
      by_cases h : c = sep
      · simp [h]
      · rw [if_neg h]
        cases hs : pySplitMax sep (n + 1) rest <;> simp

/-- The first chunk of a bounded split is the run up to the first
separator. -/
theorem pySplitMax_head (sep : Char) :
    ∀ (l : List Char) (n : ℕ),
      (pySplitMax sep (n + 1) l).getD 0 [] = l.takeWhile (fun c => !(c == sep)) := by
  intro l
  induction l with
  | nil => intro n; simp [pySplitMax]
  | cons c rest ih =>
    intro n
    simp only [pySplitMax, List.takeWhile_cons]
    by_cases h : c = sep
    · subst h
      simp
    · have hb : (c == sep) = false := by simp [h]
      rw [if_neg h]
      simp only [hb, Bool.not_false, if_true]
      cases hs : pySplitMax sep (n + 1) rest with
      | nil => exact absurd hs (pySplitMax_ne_nil sep (n + 1) rest)
      | cons r0 rs =>
        have h2 := ih n
        rw [hs] at h2
        simp only [List.getD_cons_zero] at h2 ⊢
        rw [h2]

/-- C4 (amended): for every single line whose stripped form begins METRIC:,
the parser deletes every occurrence of the marker from the stripped line and
splits the result on colons with at most two splits; whenever that result has
the shape name:rest with name its first, colon-free field, the stored metric
name is name and the stored value is the float-or-string conversion of the
part of rest up to the next colon — everything from a second colon on is
discarded, whatever it is. -/
theorem c4_metric_fields (l name rest2 : List Char)
    (hnl : ∀ c ∈ l, ¬ c = '\n')
    (hname : ∀ c ∈ name, ¬ c = ':')
    (hM : mMark.isPrefixOf (pyStrip l) = true)
    (hdec : replaceAll mMark (pyStrip l) = name ++ ':' :: rest2) :
    parse_output (String.mk l) =
      [Artifact.metrics [(String.mk name,
        metricParse (rest2.takeWhile (fun c => !(c == ':'))))]] := by
  have hM2 : (('M' :: "ETRIC:".toList).isPrefixOf (pyStrip l)) = true := hM
  obtain ⟨s2, hs2⟩ := isPrefixOf_cons_exists "ETRIC:".toList (pyStrip l) hM2
  have hts : tsMark.isPrefixOf (pyStrip l) = false := by
    rw [hs2]
    exact isPrefixOf_cons_false "ABLE_START:".toList s2 (by decide)
  have hpb : pbMark.isPrefixOf (pyStrip l) = false := by
    rw [hs2]
    exact isPrefixOf_cons_false "LOT_BASE64:".toList s2 (by decide)
  have hsplit : pySplitMax ':' 2 (replaceAll mMark (pyStrip l)) =
      name :: pySplitMax ':' 1 rest2 := by
    rw [hdec]
    exact pySplitMax_chunk ':' name hname 1 rest2
  have hlen : 2 ≤ (pySplitMax ':' 2 (replaceAll mMark (pyStrip l))).length := by
    rw [hsplit]
    have h1 := pySplitMax_ne_nil ':' 1 rest2
    have h2 : 0 < (pySplitMax ':' 1 rest2).length := List.length_pos.2 h1
    simp only [List.length_cons]
    omega
  have hval : (pySplitMax ':' 1 rest2).getD 0 [] =
      rest2.takeWhile (fun c => !(c == ':')) := pySplitMax_head ':' rest2 0
  have hg0 : (pySplitMax ':' 2 (replaceAll mMark (pyStrip l))).getD 0 [] = name := by
    rw [hsplit]
    rfl
  have hg1 : (pySplitMax ':' 2 (replaceAll mMark (pyStrip l))).getD 1 [] =
      rest2.takeWhile (fun c => !(c == ':')) := by
    rw [hsplit]
    exact hval
  unfold parse_output runParse
  rw [show (String.mk l).toList = l from rfl]
  rw [splitOnChar_single '\n' l hnl]
  rw [show ([l] : List (List Char)).length = 0 + 1 from rfl]
  rw [parseLoopF_metric_cons 0 l [] ⟨[], [], []⟩ hts hpb hM hlen]
  rw [parseLoopF_nil]
  rw [hg0, hg1]
  simp [flattenArtifacts]

/-- C4 (witness): on the line METRIC:a:METRIC:b the marker is deleted
everywhere, leaving a:b, so the stored metric is named a with value the
float-or-string conversion of b (here the literal string b). -/
theorem c4_witness :
    parse_output (String.mk "METRIC:a:METRIC:b".toList) =
      [Artifact.metrics [(String.mk "a".toList,
        metricParse ("b".toList.takeWhile (fun c => !(c == ':'))))]] :=
  c4_metric_fields "METRIC:a:METRIC:b".toList "a".toList "b".toList
    (by decide) (by decide) (by decide) (by decide)

/-! ### C6 — artifact ordering -/

theorem length_dropWhile_le {α : Type} (p : α → Bool) :
    ∀ l : List α, (l.dropWhile p).length ≤ l.length := by
  intro l
  induction l with
  | nil => simp
  | cons c rest ih =>
    simp only [List.dropWhile]
    cases h : p c
    · simp
    · simp only [List.length_cons]
      omega

/-- The parse loop refines the three single-purpose scans: its result is the
input accumulator extended, per group, by the artifacts of the dedicated
scan, plots numbered from the count already accumulated. -/
theorem parseLoopF_spec (n : ℕ) :
    ∀ (lines : List (List Char)) (st : PState), lines.length ≤ n →
      parseLoopF n lines st =
        ⟨st.tables ++ specTablesF n lines,
         st.plots ++ specPlotsF n st.plots.length lines,
         st.metricItems ++ specMetricItemsF n lines⟩ := by
  induction n with
  | zero =>
    intro lines st h
    have hl : lines = [] := List.length_eq_zero.1 (Nat.le_zero.1 h)
    subst hl
    simp [parseLoopF_nil, specTablesF, specPlotsF, specMetricItemsF]
  | succ n ih =>
    intro lines st h
    cases lines with
    | nil => simp [parseLoopF_nil, specTablesF, specPlotsF, specMetricItemsF]
    | cons l rest =>
      have hrest : rest.length ≤ n := by
        simp only [List.length_cons] at h; omega
      have hrest2 : ((rest.dropWhile notTableEnd).drop 1).length ≤ n := by
        have h1 := length_dropWhile_le notTableEnd rest
        have h2 := List.length_drop 1 (rest.dropWhile notTableEnd)
        omega
      simp only [parseLoopF, specTablesF, specPlotsF, specMetricItemsF]
      by_cases h1 : tsMark.isPrefixOf (pyStrip l) = true
      · rw [if_pos h1, if_pos h1, if_pos h1, if_pos h1]
        rcases htab : tableArtifact (replaceAll tsMark (pyStrip l))
            (joinAll (rest.takeWhile notTableEnd)) with _ | a
        · simp only [htab]
          exact ih _ _ hrest2
        · simp only [htab]
          rw [ih _ _ hrest2]
          simp [List.append_assoc]
      · rw [if_neg h1, if_neg h1, if_neg h1, if_neg h1]
        by_cases h2 : pbMark.isPrefixOf (pyStrip l) = true
        · rw [if_pos h2, if_pos h2, if_pos h2]
          rw [ih _ _ hrest]
          simp [List.append_assoc]
        · rw [if_neg h2, if_neg h2, if_neg h2]
          by_cases h3 : mMark.isPrefixOf (pyStrip l) = true
          · rw [if_pos h3, if_pos h3]
            by_cases h4 : 2 ≤ (pySplitMax ':' 2 (replaceAll mMark (pyStrip l))).length
            · rw [if_pos h4, if_pos h4]
              rw [ih _ _ hrest]
              simp [List.append_assoc]
            · rw [if_neg h4, if_neg h4]
              exact ih _ _ hrest
          · rw [if_neg h3, if_neg h3]
            exact ih _ _ hrest

/-- C6: the artifact list is the tables in first-appearance order, then the
plots in first-appearance order (numbered by a running count), then the
single metrics artifact when any metric line was seen — each group described
by its own dedicated scan of the captured output. -/
theorem c6_artifact_order (output : String) :
    parse_output output =
      specTables (splitOnChar '\n' output.toList) ++
        specPlots (splitOnChar '\n' output.toList) ++
        (if (specMetricItems (splitOnChar '\n' output.toList)).isEmpty then []
         else [Artifact.metrics (specMetricItems (splitOnChar '\n' output.toList))]) := by
  unfold parse_output runParse flattenArtifacts specTables specPlots specMetricItems
  rw [parseLoopF_spec (splitOnChar '\n' output.toList).length
    (splitOnChar '\n' output.toList) ⟨[], [], []⟩ le_rfl]
  simp

/-! ### C7 and C10 — dropped table blocks -/

theorem takeWhile_middle {α : Type} (p : α → Bool) :
    ∀ (body : List α) (te : α) (rest : List α),
      (∀ b ∈ body, p b = true) → p te = false →
      (body ++ te :: rest).takeWhile p = body ∧
        (body ++ te :: rest).dropWhile p = te :: rest := by
  intro body
  induction body with
  | nil =>
    intro te rest _ hte
    simp [List.takeWhile, List.dropWhile, hte]
  | cons b body ih =>
    intro te rest hb hte
    have h1 : p b = true := hb b (List.mem_cons_self b body)
    have := ih te rest (fun x hx => hb x (List.mem_cons_of_mem b hx)) hte
    simp only [List.cons_append, List.takeWhile_cons, List.dropWhile_cons, h1, if_true]
    simp [this.1, this.2]

theorem parseLoopF_irrel :
    ∀ (n m : ℕ) (lines : List (List Char)) (st : PState),
      lines.length ≤ n → lines.length ≤ m →
      parseLoopF n lines st = parseLoopF m lines st := by
  intro n
  induction n with
  | zero =>
    intro m lines st hn _
    have : lines = [] := List.length_eq_zero.1 (Nat.le_zero.1 hn)
    subst this
    simp [parseLoopF_nil]
  | succ n ih =>
    intro m lines st hn hm
    cases lines with
    | nil => simp [parseLoopF_nil]
    | cons l rest =>
      cases m with
      | zero => simp at hm
      | succ m =>
        have hrest : rest.length ≤ n ∧ rest.length ≤ m := by
          simp only [List.length_cons] at hn hm; omega
        have hrest2 : ((rest.dropWhile notTableEnd).drop 1).length ≤ n ∧
            ((rest.dropWhile notTableEnd).drop 1).length ≤ m := by
          have h1 := length_dropWhile_le notTableEnd rest
          have h2 := List.length_drop 1 (rest.dropWhile notTableEnd)
          omega
        simp only [parseLoopF]
        by_cases h1 : tsMark.isPrefixOf (pyStrip l) = true
        · rw [if_pos h1, if_pos h1]
          exact ih m _ _ hrest2.1 hrest2.2
        · rw [if_neg h1, if_neg h1]
          by_cases h2 : pbMark.isPrefixOf (pyStrip l) = true
          · rw [if_pos h2, if_pos h2]
            exact ih m _ _ hrest.1 hrest.2
          · rw [if_neg h2, if_neg h2]
            by_cases h3 : mMark.isPrefixOf (pyStrip l) = true
            · rw [if_pos h3, if_pos h3]
              by_cases h4 : 2 ≤ (pySplitMax ':' 2 (replaceAll mMark (pyStrip l))).length
              · rw [if_pos h4, if_pos h4]
                exact ih m _ _ hrest.1 hrest.2
              · rw [if_neg h4, if_neg h4]
                exact ih m _ _ hrest.1 hrest.2
            · rw [if_neg h3, if_neg h3]
              exact ih m _ _ hrest.1 hrest.2

/-- A table block whose body yields no artifact is skipped whole: the parse of
the surrounding output continues exactly as if the block were absent. -/
theorem parseLoop_table_drop (st : PState) (l te : List Char)
    (body rest : List (List Char))
    (h1 : tsMark.isPrefixOf (pyStrip l) = true)
    (h2 : ∀ b ∈ body, notTableEnd b = true)
    (h3 : notTableEnd te = false)
    (h4 : tableArtifact (replaceAll tsMark (pyStrip l)) (joinAll body) = none) :
    runParse (l :: (body ++ te :: rest)) st = runParse rest st := by
  unfold runParse
  rw [show (l :: (body ++ te :: rest)).length = (body.length + rest.length + 1) + 1 from by
    simp; omega]
  rcases takeWhile_middle notTableEnd body te rest h2 h3 with ⟨ht, hd⟩
  simp only [parseLoopF]
  rw [if_pos h1, ht, hd, h4]
  simp only [List.drop_succ_cons, List.drop_zero]
  exact parseLoopF_irrel _ _ rest st (by omega) le_rfl

/-- C7 (amended): a terminated TABLE_START block whose captured body fails to
convert to a table (any body on which the JSON conversion yields nothing) is
dropped silently and the scan continues after the TABLE_END line exactly as
if the block were absent, so every marker outside the block still produces
its artifact.  (An unterminated block instead swallows the remainder of the
output, per the counterexample.) -/
theorem c7_malformed_table_dropped (st : PState) (l te : List Char)
    (body rest : List (List Char))
    (h1 : tsMark.isPrefixOf (pyStrip l) = true)
    (h2 : ∀ b ∈ body, teMark.isPrefixOf (pyStrip b) = false)
    (h3 : teMark.isPrefixOf (pyStrip te) = true)
    (h4 : tableArtifact (replaceAll tsMark (pyStrip l)) (joinAll body) = none) :
    runParse (l :: (body ++ te :: rest)) st = runParse rest st := by
  apply parseLoop_table_drop st l te body rest h1 _ _ h4
  · intro b hb
    simp [notTableEnd, h2 b hb]
  · simp [notTableEnd, h3]

/-- C7 (witness): the block TABLE_START:t with body nope and a TABLE_END is
dropped and the following PLOT_BASE64 marker still parses. -/
theorem c7_witness :
    runParse ["TABLE_START:t".toList, "nope".toList, "TABLE_END".toList,
        "PLOT_BASE64:AAAA".toList] ⟨[], [], []⟩ =
      runParse ["PLOT_BASE64:AAAA".toList] ⟨[], [], []⟩ :=
  c7_malformed_table_dropped ⟨[], [], []⟩ "TABLE_START:t".toList "TABLE_END".toList
    ["nope".toList] ["PLOT_BASE64:AAAA".toList]
    (by decide) (by decide) (by decide) (by decide)

/-- C10: a TABLE_START block whose body parses as the empty JSON array is
dropped exactly like a malformed one (the empty list is falsy in Python), and
the scan continues after TABLE_END, so every other marker still produces its
artifact. -/
theorem c10_empty_table_dropped (st : PState) (l te : List Char)
    (body rest : List (List Char))
    (h1 : tsMark.isPrefixOf (pyStrip l) = true)
    (h2 : ∀ b ∈ body, teMark.isPrefixOf (pyStrip b) = false)
    (h3 : teMark.isPrefixOf (pyStrip te) = true)
    (h4 : pyJsonLoads (joinAll body) = some (PyJson.arr [])) :
    runParse (l :: (body ++ te :: rest)) st = runParse rest st := by
  apply parseLoop_table_drop st l te body rest h1
  · intro b hb
    simp [notTableEnd, h2 b hb]
  · simp [notTableEnd, h3]
  · simp [tableArtifact, h4]

/-- C10 (witness): the block TABLE_START:t with body the empty JSON array is
dropped and the following PLOT_BASE64 marker still parses. -/
theorem c10_witness :
    runParse ["TABLE_START:t".toList, "[]".toList, "TABLE_END".toList,
        "PLOT_BASE64:AAAA".toList] ⟨[], [], []⟩ =
      runParse ["PLOT_BASE64:AAAA".toList] ⟨[], [], []⟩ :=
  c10_empty_table_dropped ⟨[], [], []⟩ "TABLE_START:t".toList "TABLE_END".toList
    ["[]".toList] ["PLOT_BASE64:AAAA".toList]
    (by decide) (by decide) (by decide) rfl

/-! ### C3 — the auto-fix bound -/

/-- C3: for a run whose plan generation succeeds, whose script faults on the
initial execution and on every repaired execution, and which is never
cancelled, the orchestrator makes at most 2 oracle repair calls — exactly 1
when the first repair call itself raises (ending the attempts early), else
exactly 2 — and then transitions to Failed: it publishes an error event and
no complete event, stores exactly one failure result carrying the fault and
elapsed time of the last executed script, closes the stream, and leaves the
Registry not-live for the id. -/
theorem c3_autofix_bound (env : OracleEnv) (g : GenResult) (id fileId taskId : String)
    (s : Sys) (hg : env.genPlan = some g) (hf : ∀ k, env.scriptFault k ≠ none)
    (hs : s = execute_task_async env none id fileId taskId (initSys id)) :
    s.fixCalls ≤ 2 ∧
      s.fixCalls = (if env.fixText 1 = none then 1 else 2) ∧
      "error" ∈ cachedKinds s id ∧
      "complete" ∉ cachedKinds s id ∧
      s.stored = [(id, StoredResult.failed
        ((env.scriptFault (if env.fixText 1 = none then 0
          else if env.fixText 2 = none then 1 else 2)).getD "")
        (env.scriptTime (if env.fixText 1 = none then 0
          else if env.fixText 2 = none then 1 else 2)))] ∧
      id ∈ s.stream.completedStreams ∧
      s.registry.is_active id = false := by
  subst hs
  rcases h0 : env.scriptFault 0 with _ | e0
  · exact absurd h0 (hf 0)
  rcases hfx1 : env.fixText 1 with _ | t1
  · simp [execute_task_async, execTaskBody, initSys, doYield, sendEv, closeS, storeRes,
      autoFixLoop, runScript, cachedKinds, hg, h0, hfx1,
      ExecutionManager.add_execution, ExecutionManager.remove_execution,
      ExecutionManager.is_active, StreamManager.send_event, StreamManager.close_stream,
      StreamManager.create_stream, emptyStreamManager, updMap]
  rcases h1 : env.scriptFault 1 with _ | e1
  · exact absurd h1 (hf 1)
  rcases hfx2 : env.fixText 2 with _ | t2
  · simp [execute_task_async, execTaskBody, initSys, doYield, sendEv, closeS, storeRes,
      autoFixLoop, runScript, cachedKinds, hg, h0, h1, hfx1, hfx2,
      ExecutionManager.add_execution, ExecutionManager.remove_execution,
      ExecutionManager.is_active, StreamManager.send_event, StreamManager.close_stream,
      StreamManager.create_stream, emptyStreamManager, updMap]
  rcases h2 : env.scriptFault 2 with _ | e2
  · exact absurd h2 (hf 2)
  · simp [execute_task_async, execTaskBody, initSys, doYield, sendEv, closeS, storeRes,
      autoFixLoop, runScript, cachedKinds, hg, h0, h1, h2, hfx1, hfx2,
      ExecutionManager.add_execution, ExecutionManager.remove_execution,
      ExecutionManager.is_active, StreamManager.send_event, StreamManager.close_stream,
      StreamManager.create_stream, emptyStreamManager, updMap]

/-- C3 (witness): the always-faulting script with both repair calls returning
code makes exactly 2 repair calls and stores the failure of the third
execution. -/
theorem c3_witness :
    (execute_task_async envAllFail none "t" "f" "k" (initSys "t")).fixCalls ≤ 2 ∧
      (execute_task_async envAllFail none "t" "f" "k" (initSys "t")).fixCalls =
        (if envAllFail.fixText 1 = none then 1 else 2) ∧
      "error" ∈ cachedKinds (execute_task_async envAllFail none "t" "f" "k" (initSys "t")) "t" ∧
      "complete" ∉ cachedKinds (execute_task_async envAllFail none "t" "f" "k" (initSys "t")) "t" ∧
      (execute_task_async envAllFail none "t" "f" "k" (initSys "t")).stored =
        [("t", StoredResult.failed
          ((envAllFail.scriptFault (if envAllFail.fixText 1 = none then 0
            else if envAllFail.fixText 2 = none then 1 else 2)).getD "")
          (envAllFail.scriptTime (if envAllFail.fixText 1 = none then 0
            else if envAllFail.fixText 2 = none then 1 else 2)))] ∧
      "t" ∈ (execute_task_async envAllFail none "t" "f" "k" (initSys "t")).stream.completedStreams ∧
      (execute_task_async envAllFail none "t" "f" "k" (initSys "t")).registry.is_active "t" = false :=
  c3_autofix_bound envAllFail genD "t" "f" "k"
    (execute_task_async envAllFail none "t" "f" "k" (initSys "t"))
    rfl (fun _ h => Option.noConfusion h) rfl

/-! ### C2 — cancellation before Executing (amended theorem) -/

set_option maxHeartbeats 3200000 in
/-- C2 (amended): for every run and every suspension point, if the cancel
endpoint fires (removes the id) at a moment when neither the execution event
nor a terminal error event has yet been published — cancellation before the
Executing state begins and before any terminal fault handling — then no
complete and no error event is ever published for the id, the stream is
closed (without a terminal content event), and the Registry reports not-live
for the id from then on. -/
theorem c2_cancel_before_executing (env : OracleEnv) (n : ℕ)
    (id fileId taskId : String) (ks : List String) (s : Sys)
    (hs : s = execute_task_async env (some n) id fileId taskId (initSys id))
    (hfire : s.cancelInfo = some ks)
    (hexec : "execution" ∉ ks) (herr : "error" ∉ ks) :
    "complete" ∉ cachedKinds s id ∧ "error" ∉ cachedKinds s id ∧
      id ∈ s.stream.completedStreams ∧ s.registry.is_active id = false := by
  subst hs
  rcases hgp : env.genPlan with _ | g
  · rcases n with _ | _ | n
    · simp only [execute_task_async, execTaskBody, initSys, doYield, cancelEndpoint,
        sendEv, closeS, storeRes, cachedKinds, hgp,
        ExecutionManager.add_execution, ExecutionManager.remove_execution,
        ExecutionManager.is_active, StreamManager.send_event, StreamManager.close_stream,
        StreamManager.create_stream, emptyStreamManager, updMap] at hfire ⊢
      simp [updMap] at hfire ⊢
    · simp only [execute_task_async, execTaskBody, initSys, doYield, cancelEndpoint,
        sendEv, closeS, storeRes, cachedKinds, hgp,
        ExecutionManager.add_execution, ExecutionManager.remove_execution,
        ExecutionManager.is_active, StreamManager.send_event, StreamManager.close_stream,
        StreamManager.create_stream, emptyStreamManager, updMap] at hfire
      simp [updMap] at hfire
      subst hfire
      exact absurd (by decide) herr
    · simp only [execute_task_async, execTaskBody, initSys, doYield, cancelEndpoint,
        sendEv, closeS, storeRes, cachedKinds, hgp,
        ExecutionManager.add_execution, ExecutionManager.remove_execution,
        ExecutionManager.is_active, StreamManager.send_event, StreamManager.close_stream,
        StreamManager.create_stream, emptyStreamManager, updMap] at hfire
      simp [updMap] at hfire
  · rcases n with _ | _ | _ | _ | n
    · simp only [execute_task_async, execTaskBody, initSys, doYield, cancelEndpoint,
        sendEv, closeS, storeRes, cachedKinds, hgp,
        ExecutionManager.add_execution, ExecutionManager.remove_execution,
        ExecutionManager.is_active, StreamManager.send_event, StreamManager.close_stream,
        StreamManager.create_stream, emptyStreamManager, updMap] at hfire ⊢
      simp [updMap] at hfire ⊢
    · simp only [execute_task_async, execTaskBody, initSys, doYield, cancelEndpoint,
        sendEv, closeS, storeRes, cachedKinds, hgp,
        ExecutionManager.add_execution, ExecutionManager.remove_execution,
        ExecutionManager.is_active, StreamManager.send_event, StreamManager.close_stream,
        StreamManager.create_stream, emptyStreamManager, updMap] at hfire ⊢
      simp [updMap] at hfire ⊢
    · simp only [execute_task_async, execTaskBody, initSys, doYield, cancelEndpoint,
        sendEv, closeS, storeRes, cachedKinds, hgp,
        ExecutionManager.add_execution, ExecutionManager.remove_execution,
        ExecutionManager.is_active, StreamManager.send_event, StreamManager.close_stream,
        StreamManager.create_stream, emptyStreamManager, updMap] at hfire
      simp [updMap] at hfire
      subst hfire
      exact absurd (by decide) hexec
    · rcases h0 : env.scriptFault 0 with _ | e0
      · simp only [execute_task_async, execTaskBody, initSys, doYield, cancelEndpoint,
          sendEv, closeS, storeRes, cachedKinds, autoFixLoop, runScript, hgp, h0,
          ExecutionManager.add_execution, ExecutionManager.remove_execution,
          ExecutionManager.is_active, StreamManager.send_event, StreamManager.close_stream,
          StreamManager.create_stream, emptyStreamManager, updMap] at hfire
        simp [updMap] at hfire
        subst hfire
        exact absurd (by decide) hexec
      · rcases hfx1 : env.fixText 1 with _ | t1
        · simp only [execute_task_async, execTaskBody, initSys, doYield, cancelEndpoint,
            sendEv, closeS, storeRes, cachedKinds, autoFixLoop, runScript, hgp, h0, hfx1,
            ExecutionManager.add_execution, ExecutionManager.remove_execution,
            ExecutionManager.is_active, StreamManager.send_event, StreamManager.close_stream,
            StreamManager.create_stream, emptyStreamManager, updMap] at hfire
          simp [updMap] at hfire
        · rcases h1 : env.scriptFault 1 with _ | e1
          · simp only [execute_task_async, execTaskBody, initSys, doYield, cancelEndpoint,
              sendEv, closeS, storeRes, cachedKinds, autoFixLoop, runScript, hgp, h0, h1, hfx1,
              ExecutionManager.add_execution, ExecutionManager.remove_execution,
              ExecutionManager.is_active, StreamManager.send_event, StreamManager.close_stream,
              StreamManager.create_stream, emptyStreamManager, updMap] at hfire
            simp [updMap] at hfire
            subst hfire
            exact absurd (by decide) hexec
          · rcases hfx2 : env.fixText 2 with _ | t2
            · simp only [execute_task_async, execTaskBody, initSys, doYield, cancelEndpoint,
                sendEv, closeS, storeRes, cachedKinds, autoFixLoop, runScript, hgp, h0, h1,
                hfx1, hfx2,
                ExecutionManager.add_execution, ExecutionManager.remove_execution,
                ExecutionManager.is_active, StreamManager.send_event,
                StreamManager.close_stream,
                StreamManager.create_stream, emptyStreamManager, updMap] at hfire
              simp [updMap] at hfire
            · rcases h2 : env.scriptFault 2 with _ | e2
              · simp only [execute_task_async, execTaskBody, initSys, doYield, cancelEndpoint,
                  sendEv, closeS, storeRes, cachedKinds, autoFixLoop, runScript, hgp, h0, h1,
                  h2, hfx1, hfx2,
                  ExecutionManager.add_execution, ExecutionManager.remove_execution,
                  ExecutionManager.is_active, StreamManager.send_event,
                  StreamManager.close_stream,
                  StreamManager.create_stream, emptyStreamManager, updMap] at hfire
                simp [updMap] at hfire
                subst hfire
                exact absurd (by decide) hexec
              · simp only [execute_task_async, execTaskBody, initSys, doYield, cancelEndpoint,
                  sendEv, closeS, storeRes, cachedKinds, autoFixLoop, runScript, hgp, h0, h1,
                  h2, hfx1, hfx2,
                  ExecutionManager.add_execution, ExecutionManager.remove_execution,
                  ExecutionManager.is_active, StreamManager.send_event,
                  StreamManager.close_stream,
                  StreamManager.create_stream, emptyStreamManager, updMap] at hfire
                simp [updMap] at hfire
    · have hc0 : ¬ (n + 1 + 1 + 1 + 1 = 0) := by omega
      have hc1 : ¬ (n + 1 + 1 + 1 + 1 = 1) := by omega
      have hc2 : ¬ (n + 1 + 1 + 1 + 1 = 2) := by omega
      have hc3 : ¬ (n + 1 + 1 + 1 + 1 = 3) := by omega
      rcases h0 : env.scriptFault 0 with _ | e0
      · simp only [execute_task_async, execTaskBody, initSys, doYield, cancelEndpoint,
          sendEv, closeS, storeRes, cachedKinds, autoFixLoop, runScript, hgp, h0,
          ExecutionManager.add_execution, ExecutionManager.remove_execution,
          ExecutionManager.is_active, StreamManager.send_event, StreamManager.close_stream,
          StreamManager.create_stream, emptyStreamManager, updMap] at hfire
        simp [updMap, hc0, hc1, hc2, hc3] at hfire
      · rcases hfx1 : env.fixText 1 with _ | t1
        · simp only [execute_task_async, execTaskBody, initSys, doYield, cancelEndpoint,
            sendEv, closeS, storeRes, cachedKinds, autoFixLoop, runScript, hgp, h0, hfx1,
            ExecutionManager.add_execution, ExecutionManager.remove_execution,
            ExecutionManager.is_active, StreamManager.send_event, StreamManager.close_stream,
            StreamManager.create_stream, emptyStreamManager, updMap] at hfire
          simp [updMap, hc0, hc1, hc2, hc3] at hfire
        · rcases h1 : env.scriptFault 1 with _ | e1
          · simp only [execute_task_async, execTaskBody, initSys, doYield, cancelEndpoint,
              sendEv, closeS, storeRes, cachedKinds, autoFixLoop, runScript, hgp, h0, h1, hfx1,
              ExecutionManager.add_execution, ExecutionManager.remove_execution,
              ExecutionManager.is_active, StreamManager.send_event, StreamManager.close_stream,
              StreamManager.create_stream, emptyStreamManager, updMap] at hfire
            simp [updMap, hc0, hc1, hc2, hc3] at hfire
          · rcases hfx2 : env.fixText 2 with _ | t2
            · simp only [execute_task_async, execTaskBody, initSys, doYield, cancelEndpoint,
                sendEv, closeS, storeRes, cachedKinds, autoFixLoop, runScript, hgp, h0, h1,
                hfx1, hfx2,
                ExecutionManager.add_execution, ExecutionManager.remove_execution,
                ExecutionManager.is_active, StreamManager.send_event,
                StreamManager.close_stream,
                StreamManager.create_stream, emptyStreamManager, updMap] at hfire
              simp [updMap, hc0, hc1, hc2, hc3] at hfire
            · rcases h2 : env.scriptFault 2 with _ | e2
              · simp only [execute_task_async, execTaskBody, initSys, doYield, cancelEndpoint,
                  sendEv, closeS, storeRes, cachedKinds, autoFixLoop, runScript, hgp, h0, h1,
                  h2, hfx1, hfx2,
                  ExecutionManager.add_execution, ExecutionManager.remove_execution,
                  ExecutionManager.is_active, StreamManager.send_event,
                  StreamManager.close_stream,
                  StreamManager.create_stream, emptyStreamManager, updMap] at hfire
                simp [updMap, hc0, hc1, hc2, hc3] at hfire
              · simp only [execute_task_async, execTaskBody, initSys, doYield, cancelEndpoint,
                  sendEv, closeS, storeRes, cachedKinds, autoFixLoop, runScript, hgp, h0, h1,
                  h2, hfx1, hfx2,
                  ExecutionManager.add_execution, ExecutionManager.remove_execution,
                  ExecutionManager.is_active, StreamManager.send_event,
                  StreamManager.close_stream,
                  StreamManager.create_stream, emptyStreamManager, updMap] at hfire
                simp [updMap, hc0, hc1, hc2, hc3] at hfire

/-- C2 (witness): with every collaborator succeeding, a cancellation firing
at the first suspension (after the planning event) yields a run with no
complete and no error event, a closed stream, and a not-live id. -/
theorem c2_witness :
    "complete" ∉ cachedKinds
        (execute_task_async envHappy (some 0) "t" "f" "k" (initSys "t")) "t" ∧
      "error" ∉ cachedKinds
        (execute_task_async envHappy (some 0) "t" "f" "k" (initSys "t")) "t" ∧
      "t" ∈ (execute_task_async envHappy (some 0) "t" "f" "k"
        (initSys "t")).stream.completedStreams ∧
      (execute_task_async envHappy (some 0) "t" "f" "k"
        (initSys "t")).registry.is_active "t" = false :=
  c2_cancel_before_executing envHappy 0 "t" "f" "k" ["planning"]
    (execute_task_async envHappy (some 0) "t" "f" "k" (initSys "t"))
    rfl (by decide) (by decide) (by decide)
